import Mathlib

/-!
Shallow embedding of `src/nike_scraper.py` (Nike_Data repository).

The scraper's pure logic — record normalization (`parse_product_from_json`),
price formatting/parsing (`fmt_price`, `price_to_numeric`), the harvest loop of
`collect_all_products`, the qualification filter of `main`, the PDP enrichment
control flow of `scrape_pdp`, and the dense rating ranking of
`create_top20_rating_csv` — is translated into executable Lean definitions.

Modelling conventions:
* Python JSON values are the inductive `Json` below; `dict.get(k, d)` is
  `Json.getD`, `dict[k]` (which raises `KeyError` on a missing key) is the
  partial `Json.lookup`, and Python truthiness is `Json.truthy`.
  JSON decoding itself (`json.loads`) is abstracted: the embedding starts from
  an already-decoded `Json` tree, with `none` standing for an absent /
  null `__NEXT_DATA__` element.  Values are assumed well-typed in the places
  the scraper reads strings or numbers (ill-typed JSON would crash Python in
  data-dependent ways that the claims never exercise); numeric JSON values are
  modelled as naturals, which covers all the integral peso prices and counts
  the claims are about.
* `float(...)` on the digit/dot strings the scraper produces is `pyFloat?`,
  returning an exact rational; Python's `ValueError` is `none`.
* The Playwright page/context is an external collaborator: API responses are
  an oracle `fetch : Nat → FetchOutcome` (the outcome of the i-th request) and
  the detail page is a `PdpPage` oracle of DOM-query results.  Every
  interaction with the page is recorded in an explicit event trace.
-/

namespace NikeScraper

/-- JSON values, as decoded by `json.loads`.  Numbers are modelled as `Nat`
(the scraper only compares and formats integral prices and counts). -/
inductive Json where
  | null : Json
  | bool : Bool → Json
  | num : Nat → Json
  | str : String → Json
  | arr : List Json → Json
  | obj : List (String × Json) → Json

/-- Python `dict[k]` / `dict.get(k)` lookup: `none` when the key is absent or
the value is not a dict (Python would raise `KeyError` / `TypeError`). -/
def Json.lookup : Json → String → Option Json
  | .obj kvs, k => kvs.lookup k
  | _, _ => none

/-- Python `dict.get(k, default)`. -/
def Json.getD (j : Json) (k : String) (d : Json) : Json :=
  (j.lookup k).getD d

/-- Python truthiness of a JSON value (`None`, `False`, `0`, `""`, `[]`, `{}`
are falsy). -/
def Json.truthy : Json → Bool
  | .null => false
  | .bool b => b
  | .num n => n != 0
  | .str s => s != ""
  | .arr xs => !xs.isEmpty
  | .obj kvs => !kvs.isEmpty

/-- Python `a or b` over JSON values. -/
def pyOr (a b : Json) : Json := if a.truthy then a else b

/-- Coerce a JSON value to the string the scraper reads from it
(well-typed values are strings at these spots). -/
def jStr : Json → String
  | .str s => s
  | _ => ""

/-- Coerce a JSON value to the number the scraper reads from it. -/
def jNat : Json → Nat
  | .num n => n
  | _ => 0

/-- Coerce a JSON value to the array the scraper iterates over. -/
def jArr : Json → List Json
  | .arr xs => xs
  | _ => []

/-- Python `s.strip()`: drop leading and trailing whitespace (computed on the
character list so that it is kernel-reducible). -/
def pyStrip (s : String) : String :=
  String.mk (((s.toList.dropWhile Char.isWhitespace).reverse.dropWhile Char.isWhitespace).reverse)

/-- Python `str(...)` as applied to the (string or numeric) size values in the
legacy PDP `skus` shape. -/
def pyStr : Json → String
  | .str s => s
  | .num n => toString n
  | _ => ""

/-! ### Price formatting (`fmt_price`, line 87) -/

/-- Decimal digits of `n`, least significant first, by repeated division;
`fuel` bounds the recursion (any `fuel ≥ n` is enough). -/
def natDigitsAux : Nat → Nat → List Nat
  | 0, _ => []
  | fuel + 1, n => if n = 0 then [] else n % 10 :: natDigitsAux fuel (n / 10)

/-- The decimal digit characters of `n`, most significant first
(what Python renders for the integer part of `f"{value:,.0f}"`). -/
def natDecChars (n : Nat) : List Char :=
  ((natDigitsAux n n).map Nat.digitChar).reverse

/-- Insert a `','` after every third character of a reversed digit string:
the recursion behind Python's thousands grouping, working least significant
digit first. -/
def commaGroupRev : List Char → List Char
  | [] => []
  | [a] => [a]
  | [a, b] => [a, b]
  | [a, b, c] => [a, b, c]
  | a :: b :: c :: d :: rest => a :: b :: c :: ',' :: commaGroupRev (d :: rest)

/-- Thousands-group a digit string (most significant digit first). -/
def commaGroup (ds : List Char) : List Char :=
  (commaGroupRev ds.reverse).reverse

/-- Model of `fmt_price(value)`: format a numeric price like `'₱9,677'`; `None` or `0`
formats to the empty string.  (`value` is `Option Nat`: `none` is Python
`None`.) -/
def fmt_price (value : Option Nat) : String :=
  match value with
  | none => ""
  | some v => if v = 0 then "" else String.mk ('₱' :: commaGroup (natDecChars v))

/-! ### Price parsing (`price_to_numeric`, line 427) -/

/-- Digit value of a decimal digit character, as Python's float parser sees
it. -/
def digitVal (c : Char) : Nat := c.toNat - 48

/-- Accumulate a digit string into a natural number (Python's reading of the
integer or fractional digit block). -/
def natOfCh (cs : List Char) : Nat :=
  cs.foldl (fun a c => a * 10 + digitVal c) 0

/-- Model of `float(s)` on the unsigned decimal literals the scraper feeds it
(`digits`, `digits.digits`, `.digits`, `digits.`): `none` models
`ValueError`.  The result is the exact rational value of the literal,
`ip + fp / 10^|fp|`, written as a single `mkRat` so that it is
kernel-computable. -/
def pyFloat? (cs : List Char) : Option ℚ :=
  let ip := cs.takeWhile fun c => c != '.'
  match cs.dropWhile (fun c => c != '.') with
  | [] =>
    if !ip.isEmpty && ip.all Char.isDigit then some (mkRat (natOfCh ip) 1) else none
  | _ :: fp =>
    if (!ip.isEmpty || !fp.isEmpty) && ip.all Char.isDigit && fp.all Char.isDigit then
      some (mkRat (natOfCh ip * 10 ^ fp.length + natOfCh fp) (10 ^ fp.length))
    else none

/-- Characters kept by `re.sub(r"[^\d.]", "", price_str)`. -/
def isNumDot (c : Char) : Bool := c.isDigit || c == '.'

/-- Model of `price_to_numeric(price_str)`: strip every character that is not a digit
or a dot, then `float(...)`; empty/invalid input yields `0.0`. -/
def price_to_numeric (s : String) : ℚ :=
  if s = "" then 0
  else
    match pyFloat? (s.toList.filter isNumDot) with
    | some q => q
    | none => 0

/-! ### The canonical Item (the flat dict built by `parse_product_from_json`) -/

/-- The flat product record (the dict of `parse_product_from_json`, keyed as
in `CSV_COLUMNS`). -/
structure Item where
  Product_URL : String
  Product_Image_URL : String
  Product_Tagging : String
  Product_Name : String
  Product_Description : String
  Original_Price : String
  Discount_Price : String
  Sizes_Available : String
  Vouchers : String
  Available_Colors : String
  Color_Shown : String
  Style_Code : String
  Rating_Score : String
  Review_Count : String
deriving DecidableEq, Repr

/-! ### Record Normalizer (`parse_product_from_json`, line 94) -/

/-- Model of `parse_product_from_json(grouping)`: convert one `productGrouping` JSON
object into a flat `Item`, using the first colorway as representative;
`none` when the grouping has no products. -/
def parse_product_from_json (grouping : Json) : Option Item :=
  match jArr (grouping.getD "products" (.arr [])) with
  | [] => none
  | p :: rest =>
    let num_colors := (p :: rest).length
    let copy := p.getD "copy" (.obj [])
    let prices := p.getD "prices" (.obj [])
    let colors := p.getD "displayColors" (.obj [])
    let pdp := p.getD "pdpUrl" (.obj [])
    let images := p.getD "colorwayImages" (.obj [])
    let promos := pyOr (p.getD "promotions" .null) (.obj [])
    let visibilities := jArr (pyOr (promos.getD "visibilities" .null) (.arr []))
    let badge_label := pyStrip (jStr (pyOr (p.getD "badgeLabel" .null) (.str "")))
    let voucher :=
      match visibilities with
      | [] => ""
      | v :: _ => pyStrip (jStr (pyOr (v.getD "title" .null) (.str "")))
    let initial_price := jNat (prices.getD "initialPrice" (.num 0))
    let current_price := jNat (prices.getD "currentPrice" (.num 0))
    let has_discount := current_price < initial_price && current_price > 0
    let portrait := jStr (images.getD "portraitURL" (.str ""))
    some
      { Product_URL := jStr (pdp.getD "url" (.str ""))
        Product_Image_URL :=
          if portrait != "" then portrait else jStr (images.getD "squarishURL" (.str ""))
        Product_Tagging := badge_label
        Product_Name := jStr (copy.getD "title" (.str ""))
        Product_Description := ""
        Original_Price := fmt_price (some initial_price)
        Discount_Price := if has_discount then fmt_price (some current_price) else ""
        Sizes_Available := ""
        Vouchers := voucher
        Available_Colors :=
          toString num_colors ++ " " ++ (if num_colors = 1 then "Colour" else "Colours")
        Color_Shown := jStr (colors.getD "colorDescription" (.str ""))
        Style_Code := jStr (p.getD "productCode" (.str ""))
        Rating_Score := ""
        Review_Count := "" }

/-- The first (representative) colorway of a grouping, as selected on line
103 of the source. -/
def firstVariant (grouping : Json) : Option Json :=
  (jArr (grouping.getD "products" (.arr []))).head?

/-- Value of `prices.get("initialPrice", 0)` of a variant. -/
def variantInitialPrice (p : Json) : Nat :=
  jNat ((p.getD "prices" (.obj [])).getD "initialPrice" (.num 0))

/-- Value of `prices.get("currentPrice", 0)` of a variant. -/
def variantCurrentPrice (p : Json) : Nat :=
  jNat ((p.getD "prices" (.obj [])).getD "currentPrice" (.num 0))

/-! ### Listing Harvester (`collect_all_products`, line 148) -/

/-- Constant `API_PAGE_SIZE` (line 43). -/
def API_PAGE_SIZE : Nat := 24

/-- Constant `MAX_ERRORS` (line 209). -/
def MAX_ERRORS : Nat := 15

/-- Outcome of one `context.request.get` call: a response with its HTTP
status and decoded `productGroupings` body, or a transport/parse exception. -/
inductive FetchOutcome where
  | response : Nat → List Json → FetchOutcome
  | exception : FetchOutcome

/-- Playwright's `resp.ok`: status in 200–299. -/
def respOk (status : Nat) : Bool := 200 ≤ status && status < 300

/-- Observable side effects of the harvest loop, in order. -/
inductive Event where
  | request : Nat → Event
  | jitterSleep : Event
  | cooldown30 : Event
  | refreshSession : Event
  | backoff5 : Event
deriving DecidableEq, Repr

/-- Dedup state of the harvester: `seen_codes` and `all_products`. -/
structure Harvest where
  seen : List String
  items : List Item
deriving DecidableEq, Repr

/-- Model of `add_groupings(groupings)` (line 175): normalize each grouping, skip those
without products and those whose `Style_Code` was already seen, append the
rest; returns the new state and the count of newly added items. -/
def add_groupings (groupings : List Json) (st : Harvest) : Harvest × Nat :=
  groupings.foldl
    (fun (acc : Harvest × Nat) g =>
      match parse_product_from_json g with
      | none => acc
      | some prod =>
        if prod.Style_Code ∈ acc.1.seen then acc
        else (⟨acc.1.seen ++ [prod.Style_Code], acc.1.items ++ [prod]⟩, acc.2 + 1))
    (st, 0)

/-- Result of the harvest: final pagination state, dedup state, and the event
trace of the fetch loop. -/
structure CollectResult where
  anchor : Nat
  errors : Nat
  seen : List String
  items : List Item
  trace : List Event
deriving Repr

/-- The `while anchor < total_resources and consecutive_errors < MAX_ERRORS`
loop (line 211): `fetch k` is the outcome of the k-th API request.  Each
iteration issues one request and handles it exactly as the source does:
* an OK response with empty `productGroupings` breaks the loop;
* an OK response with groups accumulates them, advances the anchor by
  `API_PAGE_SIZE`, resets the error counter and sleeps a jitter delay;
* a 429 increments the error counter and sleeps the 30 s cooldown;
* any other non-OK status increments the error counter, then refreshes the
  session when the counter is a multiple of 3 and backs off 5 s otherwise;
* an exception increments the error counter and backs off 5 s. -/
def collectLoop (total : Nat) (fetch : Nat → FetchOutcome)
    (anchor errors : Nat) (st : Harvest) (k : Nat) : CollectResult :=
  if h : anchor < total ∧ errors < MAX_ERRORS then
    match fetch k with
    | .response status groups =>
      if respOk status then
        if groups.isEmpty then
          ⟨anchor, errors, st.seen, st.items, [.request anchor]⟩
        else
          let st' := (add_groupings groups st).1
          let r := collectLoop total fetch (anchor + API_PAGE_SIZE) 0 st' (k + 1)
          ⟨r.anchor, r.errors, r.seen, r.items, .request anchor :: .jitterSleep :: r.trace⟩
      else
        let ev : Event :=
          if status = 429 then .cooldown30
          else if (errors + 1) % 3 = 0 then .refreshSession
          else .backoff5
        let r := collectLoop total fetch anchor (errors + 1) st (k + 1)
        ⟨r.anchor, r.errors, r.seen, r.items, .request anchor :: ev :: r.trace⟩
    | .exception =>
      let r := collectLoop total fetch anchor (errors + 1) st (k + 1)
      ⟨r.anchor, r.errors, r.seen, r.items, .request anchor :: .backoff5 :: r.trace⟩
  else ⟨anchor, errors, st.seen, st.items, []⟩
termination_by (total - anchor) * 16 + (15 - errors)
decreasing_by
  all_goals simp only [MAX_ERRORS] at h
  all_goals try simp only [API_PAGE_SIZE]
  all_goals omega

/-- The key chain `data["props"]["pageProps"]["initialState"]["Wall"]` plus
`wall["pageData"]` (lines 165–166); each `[...]` raises `KeyError` (here:
`none`) when the key is missing. -/
def wallChain (data : Json) : Option (Json × Json) := do
  let props ← data.lookup "props"
  let pp ← props.lookup "pageProps"
  let ist ← pp.lookup "initialState"
  let wall ← ist.lookup "Wall"
  let pd ← wall.lookup "pageData"
  pure (wall, pd)

/-- Model of `collect_all_products(page, context)`: `raw_json` is the decoded
`__NEXT_DATA__` payload (`none` when the element is absent, the
`RuntimeError` case); `fetch` is the API-response oracle.  Thrown failures
are `Except.error`. -/
def collect_all_products (raw_json : Option Json) (fetch : Nat → FetchOutcome) :
    Except String CollectResult :=
  match raw_json with
  | none => .error "Could not find __NEXT_DATA__ on the page."
  | some data =>
    match wallChain data with
    | none => .error "KeyError"
    | some (wall, page_data) =>
      let total_resources := jNat (page_data.getD "totalResources" (.num 0))
      let first_groupings := jArr (wall.getD "productGroupings" (.arr []))
      let st0 := (add_groupings first_groupings ⟨[], []⟩).1
      .ok (collectLoop total_resources fetch API_PAGE_SIZE 0 st0 0)

/-- Number of API requests recorded in a trace. -/
def countRequests (trace : List Event) : Nat :=
  trace.countP fun e => match e with | .request _ => true | _ => false

/-! ### Detail Enricher (`scrape_pdp`, line 260) -/

/-- Python string `a or b`. -/
def strOr (a b : String) : String := if a != "" then a else b

/-- Model of `re.sub(r"<[^>]+>", " ", ...)` on the character list: each complete,
non-empty `<...>` tag becomes one space; a `<` never followed by `>` has no
match after it, and `<>` does not match the pattern.  `fuel` bounds the
recursion structurally (any `fuel ≥` the list length is enough). -/
def stripTagsAux : Nat → List Char → List Char
  | 0, cs => cs
  | _ + 1, [] => []
  | fuel + 1, c :: cs =>
    if c = '<' then
      let inner := cs.takeWhile fun x => x != '>'
      match cs.dropWhile (fun x => x != '>') with
      | [] => c :: cs
      | _ :: rest =>
        if inner.isEmpty then c :: '>' :: stripTagsAux fuel rest
        else ' ' :: stripTagsAux fuel rest
    else c :: stripTagsAux fuel cs

/-- Model of `re.sub(r"\s+", " ", ...)`: collapse every whitespace run to one space
(`fuel` as in `stripTagsAux`). -/
def collapseWs : Nat → List Char → List Char
  | 0, cs => cs
  | _ + 1, [] => []
  | fuel + 1, c :: cs =>
    if c.isWhitespace then ' ' :: collapseWs fuel (cs.dropWhile Char.isWhitespace)
    else c :: collapseWs fuel cs

/-- The description clean-up of lines 294–295: strip HTML tags, trim, then
collapse whitespace. -/
def cleanDescription (s : String) : String :=
  let stripped := pyStrip (String.mk (stripTagsAux s.toList.length s.toList))
  String.mk (collapseWs stripped.toList.length stripped.toList)

/-- A truthy dict, as tested by `if pdp_product and isinstance(pdp_product,
dict)` (line 317). -/
def isTruthyDict : Json → Bool
  | .obj kvs => !kvs.isEmpty
  | _ => false

/-- The `for key in ["product", "Product"]` loop (lines 315–328): the first
of the two keys whose value is a truthy dict, if any. -/
def statePdpProduct (pdp_state : Json) : Option Json :=
  match pdp_state.lookup "product" with
  | some j =>
    if isTruthyDict j then some j
    else
      match pdp_state.lookup "Product" with
      | some j' => if isTruthyDict j' then some j' else none
      | none => none
  | none =>
    match pdp_state.lookup "Product" with
    | some j' => if isTruthyDict j' then some j' else none
    | none => none

/-- The `selectedProduct` tier (lines 284–310): description from
`productInfo` (first non-empty of productDescription / reasonToBuy /
subtitle, cleaned), sizes from the `sizes` entries whose status is `ACTIVE`
or `LOW`, rendered `<prefix> <label>`. -/
def applySelectedProduct (sp : Json) (product : Item) : Item :=
  if sp.truthy then
    let pi := sp.getD "productInfo" (.obj [])
    let desc :=
      strOr (jStr (pi.getD "productDescription" (.str "")))
        (strOr (jStr (pi.getD "reasonToBuy" (.str "")))
          (jStr (pi.getD "subtitle" (.str ""))))
    let p1 :=
      if desc != "" then { product with Product_Description := cleanDescription desc }
      else product
    let sizes_list := jArr (sp.getD "sizes" (.arr []))
    if !sizes_list.isEmpty then
      let labelPre := jStr (sp.getD "localizedLabelPrefix" (.str ""))
      let statusOf := fun (s : Json) =>
        match s.lookup "status" with
        | some v => jStr v
        | none => ""
      let available :=
        (sizes_list.filter fun s => statusOf s = "ACTIVE" || statusOf s = "LOW").filterMap
          fun s =>
            let label :=
              strOr (jStr (s.getD "localizedLabel" (.str ""))) (jStr (s.getD "label" (.str "")))
            let lp :=
              match s.lookup "localizedLabelPrefix" with
              | some v => jStr v
              | none => labelPre
            if label != "" then some (if lp != "" then lp ++ " " ++ label else label)
            else none
      if !available.isEmpty then { p1 with Sizes_Available := ", ".intercalate available }
      else p1
    else p1
  else product

/-- The legacy `initialState.product`/`.Product` tier (lines 313–328):
description from `descriptionPreview`/`description` when still empty, sizes
from the `skus` considered available by default. -/
def applyStateProduct (pdp_state : Json) (product : Item) : Item :=
  if pdp_state.truthy then
    match statePdpProduct pdp_state with
    | none => product
    | some pdp_product =>
      let p1 :=
        if product.Product_Description = "" then
          let d :=
            strOr (jStr (pdp_product.getD "descriptionPreview" (.str "")))
              (jStr (pdp_product.getD "description" (.str "")))
          if d != "" then { product with Product_Description := pyStrip d } else product
        else product
      if p1.Sizes_Available = "" then
        let skus := jArr (pdp_product.getD "skus" (.arr []))
        if !skus.isEmpty then
          let sz :=
            (skus.filter fun sk =>
                match sk.lookup "available" with
                | some v => v.truthy
                | none => true).map
              fun sk => pyStr (pyOr (sk.getD "localizedSize" (.str "")) (sk.getD "nikeSize" (.str "")))
          if !sz.isEmpty then { p1 with Sizes_Available := ", ".intercalate sz } else p1
        else p1
      else p1
  else product

/-- The whole `__NEXT_DATA__` tier of `scrape_pdp` (lines 278–331). -/
def applyNextData (pdp_data : Json) (product : Item) : Item :=
  let pp := (pdp_data.getD "props" (.obj [])).getD "pageProps" (.obj [])
  let sp := pp.getD "selectedProduct" (.obj [])
  applyStateProduct (pp.getD "initialState" (.obj [])) (applySelectedProduct sp product)

/-- Oracle for one detail page: what each guarded page interaction of
`scrape_pdp` would observe.  `none` stands for "element absent, attribute
`None`, regex unmatched, or the read raised" — all absorbed identically by
the source's guards. -/
structure PdpPage where
  gotoRaises : Bool
  nextData : Option Json
  domDescMain : String
  domDescPreview : String
  domSizeLabels : Option (List String)
  domPromoMessage : String
  ratingMetaContent : Option String
  countMetaContent : Option String
  summaryStarsMatch : Option String
  reviewsCountMatch : Option String

/-- Page interactions performed by `scrape_pdp`, in order. -/
inductive PdpEffect where
  | goto : String → PdpEffect
  | readNextData : PdpEffect
  | queryDescription : PdpEffect
  | querySizes : PdpEffect
  | queryVoucher : PdpEffect
  | scrollReviews : PdpEffect
  | queryRatingMeta : PdpEffect
  | queryCountMeta : PdpEffect
  | querySummary : PdpEffect
  | queryReviewsText : PdpEffect
deriving DecidableEq, Repr

/-- Model of `scrape_pdp(page, product)`: returns the (possibly updated) product and
the trace of page interactions.  An empty `Product_URL` returns immediately
(line 263); a navigation failure leaves the product as it was; otherwise the
extraction tiers run in source order, each later tier only for fields still
empty. -/
def scrape_pdp (pg : PdpPage) (product : Item) : Item × List PdpEffect :=
  let url := product.Product_URL
  if url = "" then (product, [])
  else if pg.gotoRaises then (product, [.goto url])
  else
    let p1 :=
      match pg.nextData with
      | none => product
      | some pdp_data => applyNextData pdp_data product
    let (p2, e2) :=
      if p1.Product_Description = "" then
        ({ p1 with Product_Description := strOr pg.domDescMain pg.domDescPreview },
          [PdpEffect.queryDescription])
      else (p1, [])
    let (p3, e3) :=
      if p2.Sizes_Available = "" then
        (match pg.domSizeLabels with
          | some ls =>
            { p2 with Sizes_Available := ", ".intercalate ((ls.map pyStrip).filter fun s => s != "") }
          | none => p2,
          [PdpEffect.querySizes])
      else (p2, [])
    let (p4, e4) :=
      if p3.Vouchers = "" then
        ({ p3 with Vouchers := pg.domPromoMessage }, [PdpEffect.queryVoucher])
      else (p3, [])
    let p5 :=
      match pg.ratingMetaContent with
      | some val => if val != "" then { p4 with Rating_Score := pyStrip val } else p4
      | none => p4
    let p6 :=
      match pg.countMetaContent with
      | some val => if val != "" then { p5 with Review_Count := pyStrip val } else p5
      | none => p5
    let (p7, e7) :=
      if p6.Rating_Score = "" then
        (match pg.summaryStarsMatch with
          | some m => { p6 with Rating_Score := m }
          | none => p6,
          [PdpEffect.querySummary])
      else (p6, [])
    let (p8, e8) :=
      if p7.Review_Count = "" then
        (match pg.reviewsCountMatch with
          | some m => { p7 with Review_Count := m }
          | none => p7,
          [PdpEffect.queryReviewsText])
      else (p7, [])
    (p8,
      [PdpEffect.goto url, PdpEffect.readNextData] ++ e2 ++ e3 ++ e4 ++
        [PdpEffect.scrollReviews, PdpEffect.queryRatingMeta, PdpEffect.queryCountMeta] ++
        e7 ++ e8)

/-! ### Qualification Filter (`main`, lines 576–588) -/

/-- The list `tagged = [p for p in all_products if p["Product_Tagging"]]`. -/
def tagged (all_products : List Item) : List Item :=
  all_products.filter fun p => p.Product_Tagging != ""

/-- The list `valid = [p for p in tagged if p["Discount_Price"]]`. -/
def valid (all_products : List Item) : List Item :=
  (tagged all_products).filter fun p => p.Discount_Price != ""

/-- The enrichment input: `valid`, replaced by `tagged` when `valid` is empty
(`if not valid: valid = tagged`, line 585). -/
def enrichmentInput (all_products : List Item) : List Item :=
  if (valid all_products).isEmpty then tagged all_products else valid all_products

/-! ### Rating/review ranking (`create_top20_rating_csv`, line 459) -/

/-- Model of `float(field or 0)` with `ValueError`/`TypeError` defaulting to `0`, as
applied to `Review_Count` and `Rating_Score` (lines 468–476). -/
def toNum (s : String) : ℚ :=
  if s = "" then 0
  else
    match pyFloat? s.toList with
    | some q => q
    | none => 0

/-- An eligible row: the product dict extended with its parsed `_rs` and
`_rc` fields. -/
structure RatedItem where
  item : Item
  rs : ℚ
  rc : ℚ
deriving DecidableEq

/-- The `eligible` list (lines 466–477): products with parsed review count
strictly above 150, carrying parsed `_rs`/`_rc`. -/
def eligible (products : List Item) : List RatedItem :=
  products.filterMap fun p =>
    let rc := toNum p.Review_Count
    if 150 < rc then some ⟨p, toNum p.Rating_Score, rc⟩ else none

/-- The comparison behind `eligible.sort(key=lambda x: (x["_rs"], x["_rc"]),
reverse=True)`: descending lexicographic order on `(_rs, _rc)`.  A stable
sort by this relation is exactly Python's stable descending sort. -/
def rankRel (a b : RatedItem) : Prop :=
  b.rs < a.rs ∨ (b.rs = a.rs ∧ b.rc ≤ a.rc)

instance : DecidableRel rankRel := fun a b => by unfold rankRel; infer_instance

/-- The sorted eligible list (line 480), obtained by a stable sort with
`rankRel` (Python's Timsort and insertion sort agree on every input, both
being stable sorts by the same total preorder). -/
def sortedEligible (products : List Item) : List RatedItem :=
  (eligible products).insertionSort rankRel

/-- The dense-rank loop (lines 483–490): walk the sorted list with
`current_rank` and the previous `(_rs, _rc)` pair, incrementing the rank
exactly when the pair changes. -/
def assignRanks : List RatedItem → Nat → Option (ℚ × ℚ) → List (RatedItem × Nat)
  | [], _, _ => []
  | it :: rest, current_rank, prev =>
    let r := if prev = some (it.rs, it.rc) then current_rank else current_rank + 1
    (it, r) :: assignRanks rest r (some (it.rs, it.rc))

/-- The `ranked` list of `create_top20_rating_csv`: eligible products in
descending `(_rs, _rc)` order, each with its dense rank. -/
def ranked (products : List Item) : List (RatedItem × Nat) :=
  assignRanks (sortedEligible products) 0 none

/-- The list `top20 = ranked[:20]` (line 492). -/
def top20 (products : List Item) : List (RatedItem × Nat) :=
  (ranked products).take 20

/-! ### Fixtures: concrete inputs realizing the spec's testable properties -/

/-- A listing variant with the given prices, as embedded JSON. -/
def sampleVariant (initial current : Nat) : Json :=
  .obj [("prices", .obj [("initialPrice", .num initial), ("currentPrice", .num current)]),
        ("productCode", .str "FV5029-100"),
        ("badgeLabel", .str "Just In")]

/-- A one-variant grouping with the given prices. -/
def sampleGrouping (initial current : Nat) : Json :=
  .obj [("products", .arr [sampleVariant initial current])]

/-- A second grouping sharing the `productCode` of `sampleGrouping` but
differing elsewhere. -/
def sampleGroupingB : Json :=
  .obj [("products", .arr [.obj [("productCode", .str "FV5029-100"),
        ("badgeLabel", .str "Bestseller")]])]

/-- A listing snapshot reporting 48 total resources with one embedded
grouping. -/
def snapshot48 : Json :=
  .obj [("props", .obj [("pageProps", .obj [("initialState", .obj [("Wall", .obj
    [("pageData", .obj [("totalResources", .num 48)]),
     ("productGroupings", .arr [sampleGrouping 1000 800])])])])])]

/-- An item with every field empty. -/
def blankItem : Item := ⟨"", "", "", "", "", "", "", "", "", "", "", "", "", ""⟩

/-- The rating/review fixture of spec §8: ratings and review counts
`[(4.8,300),(4.8,300),(4.7,400),(4.7,200)]`. -/
def rankDemo : List Item :=
  [{ blankItem with Rating_Score := "4.8", Review_Count := "300" },
   { blankItem with Rating_Score := "4.8", Review_Count := "300" },
   { blankItem with Rating_Score := "4.7", Review_Count := "400" },
   { blankItem with Rating_Score := "4.7", Review_Count := "200" }]

/-- A PDP oracle on which every page read comes back empty. -/
def blankPdpPage : PdpPage := ⟨false, none, "", "", none, "", none, none, none, none⟩

/-- Property of a fetch outcome that takes one of the two failure branches of
the loop (a non-OK response, or a transport/parse exception). -/
def isFailedFetch : FetchOutcome → Prop
  | .response status _ => respOk status = false
  | .exception => True

/-! ### Helper lemmas -/

theorem fmt_price_eq_empty_iff (n : Nat) : fmt_price (some n) = "" ↔ n = 0 := by
  constructor
  · intro h
    by_contra hn
    rw [fmt_price] at h
    rw [if_neg hn] at h
    have := congrArg String.data h
    simp at this
  · intro h
    simp [fmt_price, h]

/-! ### Claims -/

/-- C10: for every item whose detail-URL field is the empty string, the
Detail Enricher returns the item unchanged in every field and performs no
page interaction at all. -/
theorem C10_empty_url_frame (pg : PdpPage) (product : Item)
    (h : product.Product_URL = "") :
    scrape_pdp pg product = (product, []) := by
  simp [scrape_pdp, h]

theorem C10_empty_url_frame_witness :
    scrape_pdp blankPdpPage blankItem = (blankItem, []) :=
  C10_empty_url_frame blankPdpPage blankItem rfl

/-- C7: the enrichment input is the tagged-and-discounted subset whenever
some item has both a non-empty tagging and a non-empty discount price, and
the tagged-only subset when no item has both; it never contains an untagged
item. -/
theorem C7_qualification_fallback (all_products : List Item) :
    ((∃ p ∈ all_products, p.Product_Tagging ≠ "" ∧ p.Discount_Price ≠ "") →
        enrichmentInput all_products = valid all_products) ∧
    ((∀ p ∈ all_products, p.Product_Tagging = "" ∨ p.Discount_Price = "") →
        enrichmentInput all_products = tagged all_products) ∧
    (∀ p ∈ enrichmentInput all_products, p.Product_Tagging ≠ "") := by
  refine ⟨?_, ?_, ?_⟩
  · rintro ⟨p, hp, ht, hd⟩
    have hpv : p ∈ valid all_products := by
      simp [valid, tagged, List.mem_filter, hp, ht, hd]
    have hne : (valid all_products).isEmpty = false := by
      cases hv : valid all_products with
      | nil => rw [hv] at hpv; simp at hpv
      | cons a l => simp
    simp [enrichmentInput, hne]
  · intro hall
    have hv : valid all_products = [] := by
      rw [valid, List.filter_eq_nil_iff]
      intro p hp
      rcases List.mem_filter.mp hp with ⟨hmem, htag⟩
      rcases hall p hmem with h | h
      · simp [h] at htag
      · simp [h]
    simp [enrichmentInput, hv]
  · intro p hp
    rw [enrichmentInput] at hp
    have htag : p ∈ tagged all_products := by
      by_cases he : (valid all_products).isEmpty
      · rw [if_pos he] at hp; exact hp
      · rw [if_neg he] at hp; exact List.mem_of_mem_filter hp
    have := (List.mem_filter.mp htag).2
    simpa using this

theorem C7_qualification_fallback_witness :
    enrichmentInput [{ blankItem with Product_Tagging := "Just In" }] =
      tagged [{ blankItem with Product_Tagging := "Just In" }] :=
  (C7_qualification_fallback _).2.1 (by intro p hp; simp at hp; subst hp; right; rfl)

/-- C2: when two raw groups normalize to items sharing one style code, the
accumulator keeps exactly the first item and discards the duplicate without
counting it as new. -/
theorem C2_dedup_unique_style (g₁ g₂ : Json) (p₁ p₂ : Item)
    (h₁ : parse_product_from_json g₁ = some p₁)
    (h₂ : parse_product_from_json g₂ = some p₂)
    (hcode : p₁.Style_Code = p₂.Style_Code) :
    (add_groupings [g₁, g₂] ⟨[], []⟩).1.items = [p₁] ∧
    (add_groupings [g₁, g₂] ⟨[], []⟩).2 = 1 := by
  simp [add_groupings, h₁, h₂, ← hcode]

theorem C2_dedup_unique_style_witness :
    (add_groupings [sampleGrouping 1000 800, sampleGroupingB] ⟨[], []⟩).1.items.length = 1 := by
  have h := C2_dedup_unique_style (sampleGrouping 1000 800) sampleGroupingB
    ((parse_product_from_json (sampleGrouping 1000 800)).getD blankItem)
    ((parse_product_from_json sampleGroupingB).getD blankItem)
    (by decide) (by decide) (by decide)
  rw [h.1]
  rfl

/-- C1: the normalizer populates the discount price field iff the first
variant's current price is strictly below the initial price and strictly
positive, and in that case the field holds the formatted current price. -/
theorem C1_discount_rule (g : Json) (item : Item) (p : Json)
    (hparse : parse_product_from_json g = some item)
    (hvar : firstVariant g = some p) :
    (item.Discount_Price ≠ "" ↔
        (variantCurrentPrice p < variantInitialPrice p ∧ 0 < variantCurrentPrice p)) ∧
    ((variantCurrentPrice p < variantInitialPrice p ∧ 0 < variantCurrentPrice p) →
        item.Discount_Price = fmt_price (some (variantCurrentPrice p))) := by
  rw [parse_product_from_json] at hparse
  rw [firstVariant] at hvar
  cases hl : jArr (g.getD "products" (Json.arr [])) with
  | nil => rw [hl] at hparse; exact absurd hparse (by simp)
  | cons q rest =>
    rw [hl] at hparse hvar
    simp only [List.head?, Option.some.injEq] at hvar hparse
    subst hvar
    subst hparse
    simp only [variantCurrentPrice, variantInitialPrice]
    constructor
    · split
      · next h =>
        rw [Bool.and_eq_true, decide_eq_true_eq, decide_eq_true_eq] at h
        refine iff_of_true (fun hemp => ?_) ⟨h.1, h.2⟩
        have := (fmt_price_eq_empty_iff _).mp hemp
        omega
      · next h =>
        rw [Bool.and_eq_true, decide_eq_true_eq, decide_eq_true_eq] at h
        exact iff_of_false (by simp) h
    · intro hc
      split
      · rfl
      · next h =>
        rw [Bool.and_eq_true, decide_eq_true_eq, decide_eq_true_eq] at h
        exact absurd hc h

theorem C1_discount_rule_witness :
    ((parse_product_from_json (sampleGrouping 1000 800)).getD blankItem).Discount_Price =
      fmt_price (some 800) ∧
    ((parse_product_from_json (sampleGrouping 1000 800)).getD blankItem).Discount_Price =
      "₱800" := by
  have h := C1_discount_rule (sampleGrouping 1000 800)
      ((parse_product_from_json (sampleGrouping 1000 800)).getD blankItem)
      (sampleVariant 1000 800) (by decide) (by rfl)
  have h2 := h.2 (by decide)
  have h8 : variantCurrentPrice (sampleVariant 1000 800) = 800 := by decide
  rw [h8] at h2
  exact ⟨h2, by decide⟩

/-- C6: while the loop is active, a non-OK response increments the
consecutive-error counter, leaves the anchor unchanged (the continuation
retries the same anchor), and sleeps the long cooldown on 429 without a
session refresh, refreshes the session on other statuses exactly when the
error count is a multiple of 3, and backs off shortly otherwise. -/
theorem C6_non_ok_step (total : Nat) (fetch : Nat → FetchOutcome)
    (anchor errors : Nat) (st : Harvest) (k status : Nat) (groups : List Json)
    (hanchor : anchor < total) (herr : errors < MAX_ERRORS)
    (hfetch : fetch k = .response status groups) (hnok : respOk status = false) :
    collectLoop total fetch anchor errors st k =
      { anchor := (collectLoop total fetch anchor (errors + 1) st (k + 1)).anchor
        errors := (collectLoop total fetch anchor (errors + 1) st (k + 1)).errors
        seen := (collectLoop total fetch anchor (errors + 1) st (k + 1)).seen
        items := (collectLoop total fetch anchor (errors + 1) st (k + 1)).items
        trace := .request anchor ::
          (if status = 429 then Event.cooldown30
           else if (errors + 1) % 3 = 0 then Event.refreshSession
           else Event.backoff5) :: (collectLoop total fetch anchor (errors + 1) st (k + 1)).trace } := by
  rw [collectLoop, dif_pos (And.intro hanchor herr), hfetch]
  simp only [hnok, Bool.false_eq_true, if_false]

theorem C6_non_ok_step_witness :
    collectLoop 48 (fun _ => FetchOutcome.response 500 []) 24 0 ⟨[], []⟩ 0 =
      { anchor := (collectLoop 48 (fun _ => FetchOutcome.response 500 []) 24 1 ⟨[], []⟩ 1).anchor
        errors := (collectLoop 48 (fun _ => FetchOutcome.response 500 []) 24 1 ⟨[], []⟩ 1).errors
        seen := (collectLoop 48 (fun _ => FetchOutcome.response 500 []) 24 1 ⟨[], []⟩ 1).seen
        items := (collectLoop 48 (fun _ => FetchOutcome.response 500 []) 24 1 ⟨[], []⟩ 1).items
        trace := .request 24 :: Event.backoff5 ::
          (collectLoop 48 (fun _ => FetchOutcome.response 500 []) 24 1 ⟨[], []⟩ 1).trace } := by
  have h := C6_non_ok_step 48 (fun _ => FetchOutcome.response 500 []) 24 0 ⟨[], []⟩ 0 500 []
    (by decide) (by decide) rfl (by decide)
  simpa using h

/-- C4: with 48 total resources and every page fetch succeeding with a
non-empty page, the harvest loop stops with the anchor at 48 after issuing
exactly one API request (at anchor 24) and nothing further. -/
theorem C4_natural_termination (data : Json) (fetch : Nat → FetchOutcome)
    (wall page_data : Json)
    (hwall : wallChain data = some (wall, page_data))
    (htotal : jNat (page_data.getD "totalResources" (.num 0)) = 48)
    (hok : ∀ k, ∃ status groups, fetch k = .response status groups ∧
        respOk status = true ∧ groups ≠ []) :
    ∃ r, collect_all_products (some data) fetch = .ok r ∧
      r.anchor = 48 ∧ r.trace = [.request 24, .jitterSleep] ∧ countRequests r.trace = 1 := by
  obtain ⟨s, gs, hf, hs, hg⟩ := hok 0
  have hgs : gs.isEmpty = false := by
    cases gs with
    | nil => exact absurd rfl hg
    | cons a l => rfl
  have hcol : collect_all_products (some data) fetch =
      .ok (collectLoop 48 fetch API_PAGE_SIZE 0
        (add_groupings (jArr (wall.getD "productGroupings" (.arr []))) ⟨[], []⟩).1 0) := by
    simp only [collect_all_products, hwall, htotal]
  have hloop : collectLoop 48 fetch API_PAGE_SIZE 0
      (add_groupings (jArr (wall.getD "productGroupings" (.arr []))) ⟨[], []⟩).1 0 =
      { anchor := API_PAGE_SIZE + API_PAGE_SIZE, errors := 0
        seen := ((add_groupings gs
          ((add_groupings (jArr (wall.getD "productGroupings" (.arr []))) ⟨[], []⟩).1)).1).seen
        items := ((add_groupings gs
          ((add_groupings (jArr (wall.getD "productGroupings" (.arr []))) ⟨[], []⟩).1)).1).items
        trace := [Event.request API_PAGE_SIZE, Event.jitterSleep] } := by
    rw [collectLoop, dif_pos (by decide : API_PAGE_SIZE < 48 ∧ 0 < MAX_ERRORS), hf]
    simp only [hs, if_true, hgs, Bool.false_eq_true, if_false]
    rw [collectLoop, dif_neg (by decide : ¬(API_PAGE_SIZE + API_PAGE_SIZE < 48 ∧ 0 < MAX_ERRORS))]
  refine ⟨_, hcol, ?_, ?_, ?_⟩ <;> rw [hloop] <;> rfl

theorem C4_natural_termination_witness :
    ∃ r, collect_all_products (some snapshot48)
        (fun _ => FetchOutcome.response 200 [sampleGroupingB]) = .ok r ∧
      r.anchor = 48 ∧ r.trace = [.request 24, .jitterSleep] ∧ countRequests r.trace = 1 :=
  C4_natural_termination snapshot48 _
    (Json.obj [("pageData", Json.obj [("totalResources", Json.num 48)]),
               ("productGroupings", Json.arr [sampleGrouping 1000 800])])
    (Json.obj [("totalResources", Json.num 48)])
    rfl rfl
    (fun _ => ⟨200, [sampleGroupingB], rfl, rfl, List.cons_ne_nil _ _⟩)

/-- A run of the fetch loop in which every request fails spends exactly the
remaining error budget without advancing the anchor or touching the
accumulated items. -/
theorem collectLoop_all_failed (total : Nat) (fetch : Nat → FetchOutcome)
    (hfail : ∀ j, isFailedFetch (fetch j)) :
    ∀ n anchor errors st k, errors + n = MAX_ERRORS → anchor < total →
    ∃ tr, collectLoop total fetch anchor errors st k =
        { anchor := anchor, errors := MAX_ERRORS, seen := st.seen, items := st.items,
          trace := tr } ∧
      countRequests tr = n := by
  intro n
  induction n with
  | zero =>
    intro anchor errors st k he ha
    have heq : errors = MAX_ERRORS := by omega
    rw [collectLoop, dif_neg (by omega)]
    exact ⟨[], by rw [heq], rfl⟩
  | succ m ih =>
    intro anchor errors st k he ha
    have herr : errors < MAX_ERRORS := by omega
    cases hke : fetch k with
    | response status groups =>
      have hnok : respOk status = false := by
        have hx := hfail k; rw [hke] at hx; exact hx
      rw [collectLoop, dif_pos (And.intro ha herr), hke]
      simp only [hnok, Bool.false_eq_true, if_false]
      obtain ⟨tr, htr, hc⟩ := ih anchor (errors + 1) st (k + 1) (by omega) ha
      rw [htr]
      refine ⟨_, rfl, ?_⟩
      unfold countRequests at hc ⊢
      rw [List.countP_cons, List.countP_cons]
      simp only [hc]
      by_cases h429 : status = 429 <;> by_cases h3 : (errors + 1) % 3 = 0 <;>
        simp [h429, h3]
    | exception =>
      rw [collectLoop, dif_pos (And.intro ha herr), hke]
      obtain ⟨tr, htr, hc⟩ := ih anchor (errors + 1) st (k + 1) (by omega) ha
      rw [htr]
      refine ⟨_, rfl, ?_⟩
      unfold countRequests at hc ⊢
      rw [List.countP_cons, List.countP_cons]
      simp only [hc]
      simp

/-- C5: with every page fetch failing, the harvest loop stops after exactly
`MAX_ERRORS = 15` failed requests, never advances the anchor, and returns —
without raising — exactly the items accumulated from the initial embedded
snapshot. -/
theorem C5_error_budget (data : Json) (fetch : Nat → FetchOutcome) (wall page_data : Json)
    (hwall : wallChain data = some (wall, page_data))
    (hbig : API_PAGE_SIZE < jNat (page_data.getD "totalResources" (.num 0)))
    (hfail : ∀ j, isFailedFetch (fetch j)) :
    ∃ r, collect_all_products (some data) fetch = .ok r ∧
      r.errors = MAX_ERRORS ∧ countRequests r.trace = MAX_ERRORS ∧
      r.anchor = API_PAGE_SIZE ∧
      r.items = ((add_groupings (jArr (wall.getD "productGroupings" (.arr []))) ⟨[], []⟩).1).items := by
  obtain ⟨tr, htr, hc⟩ := collectLoop_all_failed (jNat (page_data.getD "totalResources" (.num 0)))
    fetch hfail MAX_ERRORS API_PAGE_SIZE 0
    ((add_groupings (jArr (wall.getD "productGroupings" (.arr []))) ⟨[], []⟩).1) 0 (by omega) hbig
  have hcol : collect_all_products (some data) fetch =
      .ok (collectLoop (jNat (page_data.getD "totalResources" (.num 0))) fetch API_PAGE_SIZE 0
        (add_groupings (jArr (wall.getD "productGroupings" (.arr []))) ⟨[], []⟩).1 0) := by
    simp only [collect_all_products, hwall]
  refine ⟨_, hcol, ?_, ?_, ?_, ?_⟩ <;> rw [htr]
  exact hc

theorem C5_error_budget_witness :
    ∃ r, collect_all_products (some snapshot48) (fun _ => FetchOutcome.exception) = .ok r ∧
      r.errors = MAX_ERRORS ∧ countRequests r.trace = MAX_ERRORS ∧
      r.anchor = API_PAGE_SIZE ∧
      r.items = ((add_groupings (jArr ((Json.obj
          [("pageData", Json.obj [("totalResources", Json.num 48)]),
           ("productGroupings", Json.arr [sampleGrouping 1000 800])]).getD
            "productGroupings" (.arr []))) ⟨[], []⟩).1).items :=
  C5_error_budget snapshot48 _
    (Json.obj [("pageData", Json.obj [("totalResources", Json.num 48)]),
               ("productGroupings", Json.arr [sampleGrouping 1000 800])])
    (Json.obj [("totalResources", Json.num 48)])
    rfl (by decide) (fun _ => trivial)

/-- C3 counterexample: a snapshot that is present (not absent) but lacks the
`props` key also aborts the harvest with a thrown failure — the bare
`data["props"]["pageProps"]["initialState"]["Wall"]` indexing raises — so
the absent-snapshot `RuntimeError` is not the only error category that
surfaces as an exception. -/
theorem C3_present_snapshot_raises :
    collect_all_products (some (Json.obj [])) (fun _ => FetchOutcome.exception) =
        .error "KeyError" ∧
      some (Json.obj []) ≠ (none : Option Json) :=
  ⟨rfl, by simp⟩

/-- C3 (amended): the harvest aborts with a thrown failure exactly when the
embedded snapshot is absent or lacks the
`props→pageProps→initialState→Wall→pageData` chain; for any present,
well-formed snapshot the harvest returns normally whatever the API fetches
do — every fetch-loop failure is absorbed. -/
theorem C3_error_propagation (raw_json : Option Json) (fetch : Nat → FetchOutcome) :
    (∃ r, collect_all_products raw_json fetch = .ok r) ↔
      (∃ data wall page_data, raw_json = some data ∧
        wallChain data = some (wall, page_data)) := by
  cases raw_json with
  | none =>
    constructor
    · rintro ⟨r, hr⟩
      exact absurd hr (by simp [collect_all_products])
    · rintro ⟨d, w, pd, hd, _⟩
      cases hd
  | some data =>
    cases hw : wallChain data with
    | none =>
      constructor
      · rintro ⟨r, hr⟩
        simp only [collect_all_products, hw] at hr
        exact absurd hr (by simp)
      · rintro ⟨d, w, pd, hd, hwd⟩
        injection hd with hd
        subst hd
        rw [hw] at hwd
        cases hwd
    | some wp =>
      constructor
      · intro _
        exact ⟨data, wp.1, wp.2, rfl, by rw [hw]⟩
      · intro _
        refine ⟨collectLoop (jNat (wp.2.getD "totalResources" (.num 0))) fetch API_PAGE_SIZE 0
          (add_groupings (jArr (wp.1.getD "productGroupings" (.arr []))) ⟨[], []⟩).1 0, ?_⟩
        simp only [collect_all_products, hw]

theorem C3_error_propagation_witness :
    ∃ r, collect_all_products (some snapshot48) (fun _ => FetchOutcome.exception) = .ok r :=
  (C3_error_propagation (some snapshot48) (fun _ => FetchOutcome.exception)).mpr
    ⟨snapshot48,
     Json.obj [("pageData", Json.obj [("totalResources", Json.num 48)]),
               ("productGroupings", Json.arr [sampleGrouping 1000 800])],
     Json.obj [("totalResources", Json.num 48)], rfl, rfl⟩

theorem natDigitsAux_eq_digits : ∀ fuel n, n ≤ fuel → natDigitsAux fuel n = Nat.digits 10 n := by
  intro fuel
  induction fuel with
  | zero =>
    intro n hn
    have : n = 0 := by omega
    subst this
    rw [Nat.digits_zero]
    rfl
  | succ f ih =>
    intro n hn
    rw [natDigitsAux]
    by_cases h0 : n = 0
    · subst h0; simp
    · rw [if_neg h0]
      have hdiv : n / 10 < n := Nat.div_lt_self (Nat.pos_of_ne_zero h0) (by omega)
      rw [ih (n / 10) (by omega)]
      rw [Nat.digits_def' (by norm_num : (1:Nat) < 10) (Nat.pos_of_ne_zero h0)]

theorem digitChar_isDigit {d : Nat} (hd : d < 10) : (Nat.digitChar d).isDigit = true := by
  interval_cases d <;> decide

theorem digitVal_digitChar {d : Nat} (hd : d < 10) : digitVal (Nat.digitChar d) = d := by
  interval_cases d <;> decide

theorem natDecChars_all_digits (n : Nat) : ∀ c ∈ natDecChars n, c.isDigit = true := by
  intro c hc
  rw [natDecChars, List.mem_reverse, List.mem_map] at hc
  obtain ⟨d, hd, hcd⟩ := hc
  rw [natDigitsAux_eq_digits n n le_rfl] at hd
  have := Nat.digits_lt_base (by norm_num) hd
  subst hcd
  exact digitChar_isDigit this

theorem natOfCh_append_one (xs : List Char) (c : Char) :
    natOfCh (xs ++ [c]) = natOfCh xs * 10 + digitVal c := by
  rw [natOfCh, natOfCh, List.foldl_append]
  rfl

theorem natOfCh_rev_map (l : List Nat) (hl : ∀ d ∈ l, d < 10) :
    natOfCh ((l.map Nat.digitChar).reverse) = Nat.ofDigits 10 l := by
  induction l with
  | nil => rfl
  | cons d t ih =>
    rw [List.map_cons, List.reverse_cons, natOfCh_append_one]
    rw [ih (fun x hx => hl x (List.mem_cons_of_mem d hx))]
    rw [digitVal_digitChar (hl d (List.mem_cons_self d t))]
    rw [Nat.ofDigits_cons]
    ring

theorem natOfCh_natDecChars (n : Nat) : natOfCh (natDecChars n) = n := by
  rw [natDecChars, natOfCh_rev_map _ (fun d hd => by
    rw [natDigitsAux_eq_digits n n le_rfl] at hd
    exact Nat.digits_lt_base (by norm_num) hd)]
  rw [natDigitsAux_eq_digits n n le_rfl]
  exact_mod_cast Nat.ofDigits_digits 10 n

theorem isDigit_ne_dot {c : Char} (h : c.isDigit = true) : (c != '.') = true := by
  simp only [Char.isDigit] at h
  simp only [bne_iff_ne, ne_eq]
  intro he
  subst he
  simp at h

theorem takeWhile_ne_dot_of_digits (l : List Char) (hl : ∀ c ∈ l, c.isDigit = true) :
    (l.takeWhile fun c => c != '.') = l := by
  induction l with
  | nil => rfl
  | cons c cs ih =>
    rw [List.takeWhile_cons, isDigit_ne_dot (hl c (List.mem_cons_self c cs))]
    rw [if_pos rfl]
    rw [ih fun x hx => hl x (List.mem_cons_of_mem c hx)]

theorem dropWhile_ne_dot_of_digits (l : List Char) (hl : ∀ c ∈ l, c.isDigit = true) :
    (l.dropWhile fun c => c != '.') = [] := by
  induction l with
  | nil => rfl
  | cons c cs ih =>
    rw [List.dropWhile_cons, isDigit_ne_dot (hl c (List.mem_cons_self c cs))]
    rw [if_pos rfl]
    rw [ih fun x hx => hl x (List.mem_cons_of_mem c hx)]

theorem pyFloat_of_digits (l : List Char) (hne : l ≠ [])
    (hl : ∀ c ∈ l, c.isDigit = true) :
    pyFloat? l = some (mkRat (natOfCh l) 1) := by
  rw [pyFloat?]
  simp only [dropWhile_ne_dot_of_digits l hl, takeWhile_ne_dot_of_digits l hl]
  rw [if_pos]
  rw [Bool.and_eq_true, List.all_eq_true]
  refine ⟨by simpa using hne, hl⟩

theorem filter_isNumDot_commaGroupRev (l : List Char)
    (hl : ∀ c ∈ l, isNumDot c = true) :
    (commaGroupRev l).filter isNumDot = l := by
  induction l using commaGroupRev.induct with
  | case1 => rfl
  | case2 a =>
    rw [commaGroupRev]
    simp [List.filter, hl a (by simp)]
  | case3 a b =>
    rw [commaGroupRev]
    simp [List.filter, hl a (by simp), hl b (by simp)]
  | case4 a b c =>
    rw [commaGroupRev]
    simp [List.filter, hl a (by simp), hl b (by simp), hl c (by simp)]
  | case5 a b c d rest ih =>
    rw [commaGroupRev]
    have ha := hl a (by simp)
    have hb := hl b (by simp)
    have hc := hl c (by simp)
    have ihr := ih fun x hx => hl x (by simp [hx])
    have hcomma : isNumDot ',' = false := rfl
    simp [List.filter, ha, hb, hc, hcomma, ihr]

theorem mem_commaGroupRev {c : Char} {l : List Char} (h : c ∈ commaGroupRev l) :
    c ∈ l ∨ c = ',' := by
  induction l using commaGroupRev.induct with
  | case1 => rw [commaGroupRev] at h; simp at h
  | case2 a => rw [commaGroupRev] at h; exact Or.inl h
  | case3 a b => rw [commaGroupRev] at h; exact Or.inl h
  | case4 a b c => rw [commaGroupRev] at h; exact Or.inl h
  | case5 a b c d rest ih =>
    rw [commaGroupRev] at h
    simp only [List.mem_cons] at h
    rcases h with h | h | h | h | h
    · exact Or.inl (by simp [h])
    · exact Or.inl (by simp [h])
    · exact Or.inl (by simp [h])
    · exact Or.inr h
    · rcases ih h with hx | hx
      · exact Or.inl (by simp [List.mem_cons] at hx ⊢; tauto)
      · exact Or.inr hx

theorem natDecChars_ne_nil (n : Nat) (hn : n ≠ 0) : natDecChars n ≠ [] := by
  rw [natDecChars, natDigitsAux_eq_digits n n le_rfl]
  simp only [ne_eq, List.reverse_eq_nil_iff, List.map_eq_nil_iff]
  exact Nat.digits_ne_nil_iff_ne_zero.mpr hn

theorem fmt_price_roundtrip (n : Nat) :
    price_to_numeric (fmt_price (some n)) = (n : ℚ) := by
  by_cases hn : n = 0
  · subst hn
    rfl
  · rw [fmt_price]
    rw [if_neg hn]
    rw [price_to_numeric]
    rw [if_neg (by
      intro h
      have := congrArg String.data h
      simp at this)]
    have htl : (String.mk ('₱' :: commaGroup (natDecChars n))).toList =
        '₱' :: commaGroup (natDecChars n) := rfl
    rw [htl]
    have hp : isNumDot '₱' = false := rfl
    rw [List.filter_cons, hp]
    simp only [Bool.false_eq_true, if_false]
    rw [commaGroup, List.filter_reverse]
    rw [filter_isNumDot_commaGroupRev _ (by
      intro c hc
      rw [List.mem_reverse] at hc
      have := natDecChars_all_digits n c hc
      rw [isNumDot, this]
      rfl)]
    rw [List.reverse_reverse]
    rw [pyFloat_of_digits _ (natDecChars_ne_nil n hn) (natDecChars_all_digits n)]
    rw [natOfCh_natDecChars]
    simp [Rat.mkRat_one]

/-- C9: formatting 9677 and parsing it back yields 9677; parsing the empty
string yields 0; formatting maps `None`/0 to the empty string and every
other value to a currency-prefixed thousands-grouped digit string with no
decimal point, and parsing inverts formatting on every value. -/
theorem C9_price_roundtrip :
    price_to_numeric (fmt_price (some 9677)) = (9677 : ℚ) ∧
    price_to_numeric "" = 0 ∧
    fmt_price none = "" ∧
    (∀ n : Nat, fmt_price (some n) = "" ↔ n = 0) ∧
    (∀ n : Nat, n ≠ 0 →
      fmt_price (some n) = String.mk ('₱' :: commaGroup (natDecChars n)) ∧
      '.' ∉ (fmt_price (some n)).toList) ∧
    (∀ n : Nat, price_to_numeric (fmt_price (some n)) = (n : ℚ)) := by
  refine ⟨fmt_price_roundtrip 9677, rfl, rfl, fmt_price_eq_empty_iff, ?_, fmt_price_roundtrip⟩
  intro n hn
  refine ⟨by rw [fmt_price, if_neg hn], ?_⟩
  rw [fmt_price, if_neg hn]
  intro hdot
  have : ('.' : Char) ∈ '₱' :: commaGroup (natDecChars n) := hdot
  rcases List.mem_cons.mp this with h | h
  · exact absurd h (by decide)
  · rw [commaGroup, List.mem_reverse] at h
    rcases mem_commaGroupRev h with hx | hx
    · rw [List.mem_reverse] at hx
      have := natDecChars_all_digits n _ hx
      simp at this
    · exact absurd hx (by decide)

theorem C9_price_roundtrip_witness :
    price_to_numeric (fmt_price (some 9677)) = (9677 : ℚ) ∧
      fmt_price (some 9677) ≠ "" := by
  refine ⟨C9_price_roundtrip.2.2.2.2.2 9677, fun h => ?_⟩
  exact (by decide : (9677 : Nat) ≠ 0) ((C9_price_roundtrip.2.2.2.1 9677).mp h)

instance : IsTotal RatedItem rankRel := ⟨by
  intro a b
  rw [rankRel, rankRel]
  rcases lt_trichotomy a.rs b.rs with h | h | h
  · exact Or.inr (Or.inl h)
  · rcases le_total b.rc a.rc with hc | hc
    · exact Or.inl (Or.inr ⟨h.symm, hc⟩)
    · exact Or.inr (Or.inr ⟨h, hc⟩)
  · exact Or.inl (Or.inl h)⟩

instance : IsTrans RatedItem rankRel := ⟨by
  intro a b c hab hbc
  rw [rankRel] at hab hbc ⊢
  rcases hab with h1 | ⟨h1, h1c⟩ <;> rcases hbc with h2 | ⟨h2, h2c⟩
  · exact Or.inl (h2.trans h1)
  · exact Or.inl (by rw [h2]; exact h1)
  · exact Or.inl (by rw [← h1]; exact h2)
  · exact Or.inr ⟨h2.trans h1, h2c.trans h1c⟩⟩

theorem assignRanks_map_fst : ∀ (l : List RatedItem) (c : Nat) (p : Option (ℚ × ℚ)),
    (assignRanks l c p).map Prod.fst = l := by
  intro l
  induction l with
  | nil => intro c p; rfl
  | cons a t ih =>
    intro c p
    rw [assignRanks, List.map_cons, ih]

theorem eligible_map_item (ps : List Item) :
    (eligible ps).map RatedItem.item =
      ps.filter fun p => decide (150 < toNum p.Review_Count) := by
  induction ps with
  | nil => rfl
  | cons p t ih =>
    by_cases h : 150 < toNum p.Review_Count <;>
      simp only [eligible, List.filterMap_cons, List.filter_cons] at ih ⊢ <;>
      simp [h, ih]

theorem ranked_perm_eligible (ps : List Item) :
    ((ranked ps).map fun x => x.1.item).Perm
      (ps.filter fun p => decide (150 < toNum p.Review_Count)) := by
  have h1 : (ranked ps).map Prod.fst = sortedEligible ps := assignRanks_map_fst _ _ _
  have h2 : ((ranked ps).map fun x => x.1.item) =
      (sortedEligible ps).map RatedItem.item := by
    rw [← h1, List.map_map]
    rfl
  rw [h2, ← eligible_map_item]
  exact (List.perm_insertionSort rankRel (eligible ps)).map RatedItem.item

theorem ranked_sorted (ps : List Item) :
    List.Pairwise (fun a b : RatedItem × Nat => rankRel a.1 b.1) (ranked ps) := by
  have hs : List.Sorted rankRel (sortedEligible ps) :=
    List.sorted_insertionSort rankRel (eligible ps)
  have h1 : (ranked ps).map Prod.fst = sortedEligible ps := assignRanks_map_fst _ _ _
  rw [← h1] at hs
  exact List.pairwise_map.mp hs

theorem assignRanks_chain (l : List RatedItem) :
    ∀ (c : Nat) (p : Option (ℚ × ℚ)),
    List.Chain' (fun a b : RatedItem × Nat =>
      (b.2 = a.2 ↔ (a.1.rs = b.1.rs ∧ a.1.rc = b.1.rc)) ∧
      (b.2 = a.2 ∨ b.2 = a.2 + 1)) (assignRanks l c p) := by
  induction l with
  | nil => intro c p; simp [assignRanks]
  | cons a t ih =>
    intro c p
    rw [assignRanks]
    rw [List.chain'_cons']
    refine ⟨?_, ih _ _⟩
    intro y hy
    cases t with
    | nil => simp [assignRanks] at hy
    | cons b t2 =>
      rw [assignRanks] at hy
      simp only [List.head?_cons, Option.mem_def, Option.some.injEq] at hy
      subst hy
      by_cases hk : (a.rs, a.rc) = (b.rs, b.rc)
      · rw [if_pos hk]
        simp only [Prod.mk.injEq] at hk
        exact ⟨iff_of_true rfl hk, Or.inl rfl⟩
      · rw [if_neg hk]
        simp only [Prod.mk.injEq] at hk
        refine ⟨iff_of_false (by omega) hk, Or.inr rfl⟩

theorem ranked_head_rank (ps : List Item) :
    ∀ x, (ranked ps).head? = some x → x.2 = 1 := by
  intro x hx
  rw [ranked] at hx
  cases hs : sortedEligible ps with
  | nil => rw [hs] at hx; simp [assignRanks] at hx
  | cons a t =>
    rw [hs] at hx
    rw [assignRanks] at hx
    simp only [List.head?_cons, Option.some.injEq] at hx
    rw [if_neg (by simp)] at hx
    subst hx
    rfl

/-- C8: the rating ranking keeps exactly the items whose parsed review count
exceeds 150 (absent/unparseable parsing to 0), orders them descending by
`(rating, review_count)`, and assigns a dense rank starting at 1 in which
two consecutive rows share a rank exactly when both rating and review count
coincide (and otherwise the rank grows by one); on the spec's fixture the
ranks are `[1, 1, 2, 3]`. -/
theorem C8_dense_ranking :
    (∀ ps : List Item,
      ((ranked ps).map fun x => x.1.item).Perm
          (ps.filter fun p => decide (150 < toNum p.Review_Count)) ∧
      List.Pairwise (fun a b : RatedItem × Nat => rankRel a.1 b.1) (ranked ps) ∧
      List.Chain' (fun a b : RatedItem × Nat =>
        (b.2 = a.2 ↔ (a.1.rs = b.1.rs ∧ a.1.rc = b.1.rc)) ∧
        (b.2 = a.2 ∨ b.2 = a.2 + 1)) (ranked ps) ∧
      (∀ x, (ranked ps).head? = some x → x.2 = 1)) ∧
    (ranked rankDemo).map (fun x => x.2) = [1, 1, 2, 3] := by
  constructor
  · intro ps
    exact ⟨ranked_perm_eligible ps, ranked_sorted ps, assignRanks_chain _ 0 none,
      ranked_head_rank ps⟩
  · decide

theorem C8_dense_ranking_witness :
    (ranked rankDemo).map (fun x => x.2) = [1, 1, 2, 3] ∧
    (ranked rankDemo).head?.map (fun x => x.2) = some 1 := by
  refine ⟨C8_dense_ranking.2, ?_⟩
  have hmap := C8_dense_ranking.2
  cases hr : ranked rankDemo with
  | nil => rw [hr] at hmap; exact absurd hmap (by simp)
  | cons a t =>
    have h1 := (C8_dense_ranking.1 rankDemo).2.2.2 a (by rw [hr]; rfl)
    simp [hr, h1]

end NikeScraper
